import Mathlib

/-!
Verification development for the StepperModorFrictionEvaluator repository.

This file gives a shallow embedding of the recording core of the repository:
the Hampel despiking filter and the `AsyncSensorReader` acquisition methods of
`Controllers/sensorcontroller.py`, and the orchestrating recording task of
`Views/recordingwindow.py`.  Numeric sensor values and host timestamps are
modelled as exact rationals (the Python code computes on floats; all claims
under consideration are about control flow, ordering and exact data movement,
none about float rounding).  Fallible Python operations are modelled with
`Except`/`Option`; a dynamic-arity Python call is modelled by an explicit
argument-list match, since Python binds arguments only at call time.
-/

namespace StepperFriction

/-! ## Sorting and median (model of `np.median`)

`np.median` sorts the window and takes the middle element (odd length) or the
mean of the two middle elements (even length).  We use a self-contained
insertion sort; the median only depends on the sorted order. -/

/-- Insert a rational into a list in front of the first element that is not
smaller.  Helper for `sortLe`. -/
def insertLe (x : ℚ) : List ℚ → List ℚ
  | [] => [x]
  | y :: ys => if x ≤ y then x :: y :: ys else y :: insertLe x ys

/-- Insertion sort by `≤` on rationals. -/
def sortLe (l : List ℚ) : List ℚ := l.foldr insertLe []

/-- Model of `np.median` on a list of rationals: sort, take the middle element
for odd length, the average of the two middle elements for even length.
(`np.median` of an empty array is NaN; the embedding returns `0`, and no
theorem below applies `median` to an empty window.) -/
def median (l : List ℚ) : ℚ :=
  if l.length % 2 = 1 then (sortLe l).getD (l.length / 2) 0
  else ((sortLe l).getD (l.length / 2 - 1) 0 + (sortLe l).getD (l.length / 2) 0) / 2

/-! ## The Hampel filter (`hampel_filter`, sensorcontroller.py lines 16-33)

The Python loop runs `i` over `range(n)`, reads the window `vals[start:end]`
from the *original* input array (`vals`), and writes replacements into the
separate copy `filtered`.  Natural-number subtraction `i - window_size // 2`
equals Python's `max(0, i - half_w)`. -/

/-- The scale constant `k = 1.4826` of sensorcontroller.py line 20. -/
def hampelK : ℚ := 14826 / 10000

/-- Python slice `l[s:e]` (for `0 ≤ s`, `e ≤ len l`). -/
def pySlice (l : List ℚ) (s e : ℕ) : List ℚ := (l.drop s).take (e - s)

/-- The boundary-clipped window `vals[max(0, i - window_size//2) :
min(n, i + window_size//2 + 1)]` of sensorcontroller.py lines 23-25. -/
def windowOf (vals : List ℚ) (window_size i : ℕ) : List ℚ :=
  pySlice vals (i - window_size / 2) (min vals.length (i + window_size / 2 + 1))

/-- `med = np.median(window)` of sensorcontroller.py line 26. -/
def medOf (vals : List ℚ) (window_size i : ℕ) : ℚ := median (windowOf vals window_size i)

/-- `mad = np.median(np.abs(window - med))` of sensorcontroller.py line 27. -/
def madOf (vals : List ℚ) (window_size i : ℕ) : ℚ :=
  median ((windowOf vals window_size i).map (fun x => |x - medOf vals window_size i|))

/-- One iteration of the `for i in range(n)` loop of sensorcontroller.py
lines 22-32: `continue` when the MAD is zero, otherwise replace
`filtered[i]` by the window median when `|vals[i] - med| > n_sigmas * k * mad`.
The window statistics are read from `vals`, the write goes to `filtered`. -/
def hampelBody (vals : List ℚ) (window_size : ℕ) (n_sigmas : ℚ)
    (filtered : List ℚ) (i : ℕ) : List ℚ :=
  if madOf vals window_size i = 0 then filtered
  else if n_sigmas * hampelK * madOf vals window_size i
      < |vals.getD i 0 - medOf vals window_size i| then
    filtered.set i (medOf vals window_size i)
  else filtered

/-- `hampel_filter(vals, window_size, n_sigmas)` of sensorcontroller.py
lines 16-33: start from `filtered = vals.copy()` and run the loop body over
`range(len(vals))`. -/
def hampel_filter (vals : List ℚ) (window_size : ℕ := 11) (n_sigmas : ℚ := 5) : List ℚ :=
  (List.range vals.length).foldl (hampelBody vals window_size n_sigmas) vals

/-! ## Data model of `AsyncSensorReader` (sensorcontroller.py lines 35-65)

A telemetry line is stored as the decoded text (`data.decode('utf-8',
errors='ignore').strip()`, or the fallback `str(data)`); whether Python's
`float()` can later parse that text is carried alongside as `asFloat`
(Python string-to-float parsing itself is outside the embedding). -/

/-- One stored telemetry line: its text and the result of converting that
text with `float(...)` (`none` models a `ValueError`). -/
structure Line where
  text : String
  asFloat : Option ℚ
deriving DecidableEq

/-- The part of a `BleakClient` the reader inspects: its `is_connected`
property. -/
structure Client where
  is_connected : Bool
deriving DecidableEq

/-- The mutable state of `AsyncSensorReader.__init__`
(sensorcontroller.py lines 41-48): the BLE client (possibly `None`), the
connection and logging flags, the collected `(host_time, line)` pairs and
the recorded start time. -/
structure ReaderState where
  client : Option Client
  is_connected : Bool
  is_reading : Bool
  collected_data : List (ℚ × Line)
  start_time_host_s : ℚ
deriving DecidableEq

/-- Python exceptions reaching the embedding's boundaries. -/
inductive PyErr where
  | typeError
  | valueError
deriving DecidableEq

/-- Filesystem side effects of `_save_data`: the `os.makedirs('readings',
exist_ok=True)` call and the CSV file written by `csv.writer`. -/
inductive FsEffect where
  | mkdirReadings
  | writeFile (name : String) (content : List (List String))
deriving DecidableEq

/-- Outcome of one `_save_data` call: the filesystem effects it performed, in
order, and the exception it raised, if any (the Python function returns
`None` on every non-raising path). -/
structure SaveResult where
  effects : List FsEffect
  error : Option PyErr
deriving DecidableEq

/-- `notification_handler` (sensorcontroller.py lines 51-65): append the
decoded line with its arrival timestamp only while `is_reading` is set.
Decoding with `errors='ignore'` cannot raise, and the `except` branch stores
`str(data)`, so the handler is total: it never raises and never drops a
sample. -/
def notification_handler (st : ReaderState) (host_time : ℚ) (line : Line) : ReaderState :=
  if st.is_reading then
    { st with collected_data := st.collected_data ++ [(host_time, line)] }
  else st

/-- `start_reading` (sensorcontroller.py lines 132-140): only when
`self.client` is set and connected, clear the buffer, record the start time
and set the `is_reading` flag, returning `True`; otherwise return `False`
without touching any state. -/
def start_reading (st : ReaderState) (now : ℚ) : Bool × ReaderState :=
  match st.client with
  | some c =>
    if c.is_connected then
      (true, { st with collected_data := [], start_time_host_s := now, is_reading := true })
    else (false, st)
  | none => (false, st)

/-! ## Persistence (`_save_data`, sensorcontroller.py lines 157-193) -/

/-- Left-pad a digit string with zeros to width `k` (for the fractional part
of fixed-point formatting). -/
def padZeros (k : ℕ) (s : String) : String :=
  String.mk (List.replicate (k - s.length) '0') ++ s

/-- Idealized model of Python fixed-point formatting of a nonnegative value
to `prec` decimal places (the f-strings of sensorcontroller.py lines 167 and
191 format the underlying binary float; the embedding rounds the exact
rational). -/
def fmtFixed (prec : ℕ) (q : ℚ) : String :=
  toString ((round (q * (10:ℚ) ^ prec)).toNat / 10 ^ prec) ++ "." ++
    padZeros prec (toString ((round (q * (10:ℚ) ^ prec)).toNat % 10 ^ prec))

/-- Python `int(...)` on a float value: truncation toward zero
(sensorcontroller.py lines 170 and 191). -/
def pyIntTrunc (q : ℚ) : ℤ := if 0 ≤ q then ⌊q⌋ else ⌈q⌉

/-- The `.replace('.', 'p')` of sensorcontroller.py line 167 (single-character
substitution). -/
def replaceDotWithP (s : String) : String :=
  String.mk (s.toList.map (fun ch => if ch = '.' then 'p' else ch))

/-- `speed_str = f"{speed_mps:.2f}".replace('.', 'p')` of
sensorcontroller.py line 167. -/
def speed_str (speed_mps : ℚ) : String := replaceDotWithP (fmtFixed 2 speed_mps)

/-- The artifact path of sensorcontroller.py lines 168-171:
`os.path.join('readings', f'{timestamp_s}_{int(distance_cm)}cm_{speed_str}mps_grip_data.csv')`. -/
def fileNameFor (timestamp_s : ℕ) (distance_cm speed_mps : ℚ) : String :=
  "readings/" ++ toString timestamp_s ++ "_" ++ toString (pyIntTrunc distance_cm) ++
    "cm_" ++ speed_str speed_mps ++ "mps_grip_data.csv"

/-- The CSV header row of sensorcontroller.py line 189. -/
def headerRow : List String := ["Host_Time_s", "Raw_Data_Line", "Filtered_Line"]

/-- One CSV data row of sensorcontroller.py line 191:
`[f"{host_time:.6f}", raw_line, int(filt_line)]`. -/
def renderRow (p : (ℚ × Line) × ℚ) : List String :=
  [fmtFixed 6 p.1.1, p.1.2.text, toString (pyIntTrunc p.2)]

/-- The filter of sensorcontroller.py lines 174-177: keep the pairs with
`host_time >= start_time`, in order. -/
def retainedAfterStart (log_data : List (ℚ × Line)) (start_time : ℚ) : List (ℚ × Line) :=
  log_data.filter (fun p => decide (start_time ≤ p.1))

/-- The bulk conversion `np.array([line for _, line in after_start],
dtype=float)` of sensorcontroller.py line 183: succeeds only when every
retained line parses as a float, otherwise raises `ValueError`. -/
def rawFloats : List (ℚ × Line) → Option (List ℚ)
  | [] => some []
  | p :: l =>
    match p.2.asFloat with
    | none => none
    | some q =>
      match rawFloats l with
      | none => none
      | some qs => some (q :: qs)

/-- `_save_data(log_data, start_time, distance_cm, speed_mps)`
(sensorcontroller.py lines 157-193).  `timestamp_s` is the
`int(time.time())` read at line 165.  Branches, in source order: empty log →
return with no effects; otherwise create the `readings` directory and build
the filename; nothing retained after `start_time` → return; bulk float
conversion fails → `ValueError`; otherwise apply the Hampel filter with
`window_size=11, n_sigmas=5.0` and write header plus one row per retained
sample. -/
def save_data (log_data : List (ℚ × Line)) (start_time distance_cm speed_mps : ℚ)
    (timestamp_s : ℕ) : SaveResult :=
  if log_data.isEmpty then ⟨[], none⟩
  else if (retainedAfterStart log_data start_time).isEmpty then
    ⟨[FsEffect.mkdirReadings], none⟩
  else
    match rawFloats (retainedAfterStart log_data start_time) with
    | none => ⟨[FsEffect.mkdirReadings], some PyErr.valueError⟩
    | some raw_values =>
      ⟨[FsEffect.mkdirReadings,
        FsEffect.writeFile (fileNameFor timestamp_s distance_cm speed_mps)
          (headerRow ::
            ((retainedAfterStart log_data start_time).zip
              (hampel_filter raw_values 11 5)).map renderRow)],
       none⟩

deriving instance DecidableEq for Except

/-- Outcome of one `stop_reading` call: the value returned to (or exception
raised at) the awaiting caller, the reader state afterwards, and the
`_save_data` outcome. -/
structure StopResult where
  retval : Except PyErr Bool
  state : ReaderState
  save : SaveResult
deriving DecidableEq

/-- `stop_reading(distance_cm, speed_mps)` (sensorcontroller.py lines
141-155): clear `is_reading`, run `_save_data` on the collected data (awaited
via `asyncio.to_thread`, so an exception in `_save_data` propagates to the
caller), and return `True` otherwise. -/
def stop_reading (st : ReaderState) (distance_cm speed_mps : ℚ)
    (timestamp_s : ℕ) : StopResult :=
  { retval :=
      match (save_data st.collected_data st.start_time_host_s distance_cm speed_mps
          timestamp_s).error with
      | none => Except.ok true
      | some e => Except.error e
    state := { st with is_reading := false }
    save := save_data st.collected_data st.start_time_host_s distance_cm speed_mps
      timestamp_s }

/-- `true` iff the effect list contains a file write. -/
def hasFileWrite (effects : List FsEffect) : Bool :=
  effects.any (fun e => match e with
    | FsEffect.writeFile _ _ => true
    | _ => false)

/-! ## The orchestrating recording task
(`RecordingWindow._recording_task`, recordingwindow.py lines 259-299)

The task performs, in order: `start_reading()` (awaited), the motor move
command (awaited; `MotorController._run_command` returns the sentinel string
`"ERROR: DISCONNECTED"` when the serial port is not connected and never
raises, motorcontroller.py lines 35-47), the open-loop wait
`max(10, distance_cm / (speed_mps * 100)) + 1`, and then
`self.sensor_reader.stop_reading()` — a call with *zero* arguments against a
method whose signature requires `(distance_cm, speed_mps)`
(sensorcontroller.py line 141), which in Python raises `TypeError` at the
call site.  The `except` handler (line 295) issues the same zero-argument
call.  The model records the emitted events and the reader state, and
returns `Except.ok b` when the task body ran to completion having reported
`b` to `_recording_finished`, or `Except.error e` when an exception escaped
the task. -/

/-- Events emitted by one execution of `_recording_task`, in order. -/
inductive Ev where
  | startReading (ok : Bool)
  | sendCommand (resp : String)
  | wait (t : ℚ)
  | stopAttempt (nargs : ℕ)
  | stopDone
  | reportFinished (success : Bool)
deriving DecidableEq

/-- Outcome of the Python-level call `stop_reading(*args)`: the argument list
is bound against the signature `stop_reading(self, distance_cm, speed_mps)`
at call time; any arity other than two raises `TypeError` before the
coroutine body runs. -/
inductive CallOutcome where
  | arityError
  | ran (r : StopResult)

/-- Dynamic call of `AsyncSensorReader.stop_reading` with an explicit
positional-argument list (sensorcontroller.py line 141 requires exactly
`distance_cm` and `speed_mps`). -/
def stop_reading_call (st : ReaderState) (timestamp_s : ℕ) (args : List ℚ) : CallOutcome :=
  match args with
  | [d, s] => CallOutcome.ran (stop_reading st d s timestamp_s)
  | _ => CallOutcome.arityError

/-- Environment of one run: whether the motor serial port is open, the
response text the firmware would give, the sensor reader state, the host
time at arm, and the unix timestamp used by `_save_data`. -/
structure Env where
  motor_connected : Bool
  motor_resp : String
  reader : ReaderState
  now : ℚ
  now_ts : ℕ

/-- `MotorController._run_command` (motorcontroller.py lines 35-47): returns
the sentinel `"ERROR: DISCONNECTED"` instead of raising when the serial port
is not connected, otherwise the accumulated response text. -/
def run_command_resp (connected : Bool) (resp : String) : String :=
  if connected then resp else "ERROR: DISCONNECTED"

/-- The `except` handler of recordingwindow.py lines 293-299: issue
`stop_reading()` with zero arguments; if that call itself raises, the new
exception escapes the task thread and `_recording_finished` is never
called; otherwise failure is reported to the GUI. -/
def recording_except_handler (st : ReaderState) (timestamp_s : ℕ) (tr : List Ev) :
    List Ev × ReaderState × Except PyErr Bool :=
  match stop_reading_call st timestamp_s [] with
  | CallOutcome.ran r =>
    (tr ++ [Ev.stopAttempt 0, Ev.stopDone, Ev.reportFinished false], r.state,
      Except.ok false)
  | CallOutcome.arityError =>
    (tr ++ [Ev.stopAttempt 0], st, Except.error PyErr.typeError)

/-- `RecordingWindow._recording_task(distance_cm, speed_mps, direction)`
(recordingwindow.py lines 259-299).  Steps: `start_reading` (its boolean
result is discarded by the caller), the motor command (never raises), the
open-loop wait `max(10, distance_cm / (speed_mps * 100)) + 1` — a
`ZeroDivisionError` when `speed_mps * 100 == 0` goes to the handler — and
the zero-argument `stop_reading()` call, whose `TypeError` also goes to the
handler. -/
def recording_task (distance_cm speed_mps : ℚ) (env : Env) :
    List Ev × ReaderState × Except PyErr Bool :=
  let ar := start_reading env.reader env.now
  let resp := run_command_resp env.motor_connected env.motor_resp
  let tr0 := [Ev.startReading ar.1, Ev.sendCommand resp]
  if speed_mps * 100 = 0 then
    recording_except_handler ar.2 env.now_ts tr0
  else
    let t := max 10 (distance_cm / (speed_mps * 100)) + 1
    let tr1 := tr0 ++ [Ev.wait t, Ev.stopAttempt 0]
    match stop_reading_call ar.2 env.now_ts [] with
    | CallOutcome.ran r =>
      match r.retval with
      | Except.ok b => (tr1 ++ [Ev.stopDone, Ev.reportFinished true], r.state, Except.ok b)
      | Except.error _ => recording_except_handler r.state env.now_ts tr1
    | CallOutcome.arityError => recording_except_handler ar.2 env.now_ts tr1

/-! ### Basic lemmas about `List.set` and the fold -/

lemma getD_set_self (l : List ℚ) (i : ℕ) (a : ℚ) (h : i < l.length) :
    (l.set i a).getD i 0 = a := by
  induction l generalizing i with
  | nil => simp at h
  | cons x xs ih =>
    cases i with
    | zero => simp [List.set]
    | succ j =>
      simp only [List.set, List.getD_cons_succ]
      exact ih j (by simpa using h)

lemma getD_set_ne (l : List ℚ) (i j : ℕ) (a : ℚ) (h : i ≠ j) :
    (l.set i a).getD j 0 = l.getD j 0 := by
  induction l generalizing i j with
  | nil => simp [List.set]
  | cons x xs ih =>
    cases i with
    | zero =>
      cases j with
      | zero => exact absurd rfl h
      | succ j' => simp [List.set]
    | succ i' =>
      cases j with
      | zero => simp [List.set]
      | succ j' =>
        simp only [List.set, List.getD_cons_succ]
        exact ih i' j' (fun hc => h (by simp [hc]))

lemma set_of_length_le (l : List ℚ) (i : ℕ) (a : ℚ) (h : l.length ≤ i) :
    l.set i a = l := by
  induction l generalizing i with
  | nil => simp
  | cons x xs ih =>
    cases i with
    | zero => simp at h
    | succ j =>
      simp only [List.set, List.cons.injEq, true_and]
      exact ih j (by simpa using h)

lemma hampelBody_length (vals : List ℚ) (ws : ℕ) (ns : ℚ) (acc : List ℚ) (i : ℕ) :
    (hampelBody vals ws ns acc i).length = acc.length := by
  unfold hampelBody
  split
  · rfl
  · split
    · simp
    · rfl

lemma hampel_foldl_length (vals : List ℚ) (ws : ℕ) (ns : ℚ) (L : List ℕ) (acc : List ℚ) :
    (L.foldl (hampelBody vals ws ns) acc).length = acc.length := by
  induction L generalizing acc with
  | nil => rfl
  | cons i L ih => rw [List.foldl_cons, ih, hampelBody_length]

/-- Pointwise characterization of the Hampel loop: folding the body over
`range n` leaves index `j` equal to the original value unless `j < n`,
`j` is inside the list, the window MAD is nonzero and the deviation exceeds
the threshold — in which case it equals the window median.  All window
statistics refer to the original `vals`, so replacements at earlier indices
never influence later ones. -/
lemma hampel_foldl_getD (vals : List ℚ) (ws : ℕ) (ns : ℚ) (n : ℕ) (acc : List ℚ) (j : ℕ) :
    ((List.range n).foldl (hampelBody vals ws ns) acc).getD j 0 =
      if j < n ∧ j < acc.length ∧ madOf vals ws j ≠ 0 ∧
          ns * hampelK * madOf vals ws j < |vals.getD j 0 - medOf vals ws j| then
        medOf vals ws j
      else acc.getD j 0 := by
  induction n with
  | zero => simp
  | succ n ih =>
    rw [List.range_succ, List.foldl_append, List.foldl_cons, List.foldl_nil]
    set R := (List.range n).foldl (hampelBody vals ws ns) acc with hR
    have hRlen : R.length = acc.length := hampel_foldl_length vals ws ns _ acc
    unfold hampelBody
    rcases eq_or_ne (madOf vals ws n) 0 with hmad | hmad
    · rw [if_pos hmad, ih]
      by_cases hj : j = n
      · subst hj
        rw [if_neg (by rintro ⟨-, -, h, -⟩; exact h hmad),
            if_neg (by rintro ⟨-, -, h, -⟩; exact h hmad)]
      · have : (j < n + 1 ∧ j < acc.length ∧ madOf vals ws j ≠ 0 ∧
            ns * hampelK * madOf vals ws j < |vals.getD j 0 - medOf vals ws j|) ↔
            (j < n ∧ j < acc.length ∧ madOf vals ws j ≠ 0 ∧
            ns * hampelK * madOf vals ws j < |vals.getD j 0 - medOf vals ws j|) := by
          constructor
          · rintro ⟨h1, h2⟩
            exact ⟨lt_of_le_of_ne (Nat.lt_succ_iff.mp h1) hj, h2⟩
          · rintro ⟨h1, h2⟩
            exact ⟨Nat.lt_succ_of_lt h1, h2⟩
        rw [if_congr this rfl rfl]
    · rw [if_neg hmad]
      by_cases hthr : ns * hampelK * madOf vals ws n < |vals.getD n 0 - medOf vals ws n|
      · rw [if_pos hthr]
        by_cases hj : j = n
        · subst hj
          by_cases hlen : j < acc.length
          · rw [getD_set_self R j _ (hRlen ▸ hlen),
                if_pos ⟨Nat.lt_succ_self j, hlen, hmad, hthr⟩]
          · rw [set_of_length_le R j _ (by omega), ih,
                if_neg (by rintro ⟨-, h, -⟩; exact hlen h),
                if_neg (by rintro ⟨-, h, -⟩; exact hlen h)]
        · rw [getD_set_ne R n j _ (fun hc => hj hc.symm), ih]
          have : (j < n + 1 ∧ j < acc.length ∧ madOf vals ws j ≠ 0 ∧
              ns * hampelK * madOf vals ws j < |vals.getD j 0 - medOf vals ws j|) ↔
              (j < n ∧ j < acc.length ∧ madOf vals ws j ≠ 0 ∧
              ns * hampelK * madOf vals ws j < |vals.getD j 0 - medOf vals ws j|) := by
            constructor
            · rintro ⟨h1, h2⟩
              exact ⟨lt_of_le_of_ne (Nat.lt_succ_iff.mp h1) hj, h2⟩
            · rintro ⟨h1, h2⟩
              exact ⟨Nat.lt_succ_of_lt h1, h2⟩
          rw [if_congr this rfl rfl]
      · rw [if_neg hthr, ih]
        by_cases hj : j = n
        · subst hj
          rw [if_neg (by rintro ⟨-, -, -, h⟩; exact hthr h),
              if_neg (by rintro ⟨-, -, -, h⟩; exact hthr h)]
        · have : (j < n + 1 ∧ j < acc.length ∧ madOf vals ws j ≠ 0 ∧
              ns * hampelK * madOf vals ws j < |vals.getD j 0 - medOf vals ws j|) ↔
              (j < n ∧ j < acc.length ∧ madOf vals ws j ≠ 0 ∧
              ns * hampelK * madOf vals ws j < |vals.getD j 0 - medOf vals ws j|) := by
            constructor
            · rintro ⟨h1, h2⟩
              exact ⟨lt_of_le_of_ne (Nat.lt_succ_iff.mp h1) hj, h2⟩
            · rintro ⟨h1, h2⟩
              exact ⟨Nat.lt_succ_of_lt h1, h2⟩
          rw [if_congr this rfl rfl]

lemma hampel_filter_length (vals : List ℚ) (ws : ℕ) (ns : ℚ) :
    (hampel_filter vals ws ns).length = vals.length :=
  hampel_foldl_length vals ws ns _ vals

lemma hampel_filter_getD (vals : List ℚ) (ws : ℕ) (ns : ℚ) (i : ℕ) (hi : i < vals.length) :
    (hampel_filter vals ws ns).getD i 0 =
      if madOf vals ws i ≠ 0 ∧
          ns * hampelK * madOf vals ws i < |vals.getD i 0 - medOf vals ws i| then
        medOf vals ws i
      else vals.getD i 0 := by
  unfold hampel_filter
  rw [hampel_foldl_getD]
  by_cases h : madOf vals ws i ≠ 0 ∧
      ns * hampelK * madOf vals ws i < |vals.getD i 0 - medOf vals ws i|
  · rw [if_pos ⟨hi, hi, h⟩, if_pos h]
  · rw [if_neg (by rintro ⟨-, -, h1, h2⟩; exact h ⟨h1, h2⟩), if_neg h]

/-! ### Medians of constant windows -/

lemma length_insertLe (x : ℚ) (l : List ℚ) : (insertLe x l).length = l.length + 1 := by
  induction l with
  | nil => rfl
  | cons y ys ih =>
    unfold insertLe
    split
    · rfl
    · simp [ih]

lemma mem_insertLe (z x : ℚ) (l : List ℚ) : z ∈ insertLe x l ↔ z = x ∨ z ∈ l := by
  induction l with
  | nil => simp [insertLe]
  | cons y ys ih =>
    unfold insertLe
    split
    · simp
    · simp only [List.mem_cons, ih]
      tauto

lemma length_sortLe (l : List ℚ) : (sortLe l).length = l.length := by
  induction l with
  | nil => rfl
  | cons x xs ih =>
    unfold sortLe at ih ⊢
    rw [List.foldr_cons, length_insertLe, ih, List.length_cons]

lemma mem_sortLe (z : ℚ) (l : List ℚ) : z ∈ sortLe l ↔ z ∈ l := by
  induction l with
  | nil => simp [sortLe]
  | cons x xs ih =>
    unfold sortLe at ih ⊢
    rw [List.foldr_cons, mem_insertLe, ih, List.mem_cons]

lemma getD_of_const (l : List ℚ) (c : ℚ) (h : ∀ x ∈ l, x = c) (i : ℕ) (hi : i < l.length) :
    l.getD i 0 = c := by
  rw [List.getD_eq_getElem l 0 hi]
  exact h _ (List.getElem_mem hi)

lemma median_const (l : List ℚ) (c : ℚ) (hne : l ≠ []) (h : ∀ x ∈ l, x = c) :
    median l = c := by
  have hlen : 0 < l.length := List.length_pos.mpr hne
  have hs : ∀ x ∈ sortLe l, x = c := fun x hx => h x ((mem_sortLe x l).mp hx)
  unfold median
  split
  · exact getD_of_const _ c hs _ (by rw [length_sortLe]; omega)
  · have e1 : (sortLe l).getD (l.length / 2 - 1) 0 = c :=
      getD_of_const _ c hs _ (by rw [length_sortLe]; omega)
    have e2 : (sortLe l).getD (l.length / 2) 0 = c :=
      getD_of_const _ c hs _ (by rw [length_sortLe]; omega)
    rw [e1, e2]
    exact add_self_div_two c

lemma windowOf_replicate (n : ℕ) (c : ℚ) (ws i : ℕ) (hi : i < n) :
    ∃ m, 0 < m ∧ windowOf (List.replicate n c) ws i = List.replicate m c := by
  unfold windowOf pySlice
  rw [List.length_replicate, List.drop_replicate, List.take_replicate]
  refine ⟨_, ?_, rfl⟩
  omega

lemma medOf_replicate (n : ℕ) (c : ℚ) (ws i : ℕ) (hi : i < n) :
    medOf (List.replicate n c) ws i = c := by
  obtain ⟨m, hm, hw⟩ := windowOf_replicate n c ws i hi
  unfold medOf
  rw [hw]
  exact median_const _ c (List.ne_nil_of_length_pos (by simpa using hm))
    (fun x hx => List.eq_of_mem_replicate hx)

lemma madOf_replicate (n : ℕ) (c : ℚ) (ws i : ℕ) (hi : i < n) :
    madOf (List.replicate n c) ws i = 0 := by
  obtain ⟨m, hm, hw⟩ := windowOf_replicate n c ws i hi
  unfold madOf
  rw [medOf_replicate n c ws i hi, hw, List.map_replicate, sub_self, abs_zero]
  exact median_const _ 0 (List.ne_nil_of_length_pos (by simpa using hm))
    (fun x hx => List.eq_of_mem_replicate hx)

lemma foldl_fixed {α β : Type} (f : α → β → α) (l : List β) (a : α)
    (h : ∀ x b, b ∈ l → f x b = x) : l.foldl f a = a := by
  induction l generalizing a with
  | nil => rfl
  | cons b bs ih =>
    rw [List.foldl_cons, h a b (List.mem_cons_self b bs)]
    exact ih a (fun x b' hb' => h x b' (List.mem_cons_of_mem b hb'))

/-! ## C3 and C9: theorems about the Hampel filter -/

/-- C3: for every input sequence, the Hampel filter returns a sequence of the
same length whose element at index `i` equals the median of the
boundary-clipped window `vals[max(0, i - window_size/2) ..
min(n, i + window_size/2 + 1))` exactly when that window's MAD is nonzero and
`|vals[i] - median| > n_sigmas * 1.4826 * MAD`, and equals `vals[i]` unchanged
otherwise (in particular whenever the MAD is zero); the median and MAD at
every index are computed from the original input values, never from
already-replaced ones. -/
theorem hampel_filter_pointwise (vals : List ℚ) (window_size : ℕ) (n_sigmas : ℚ)
    (hodd : window_size % 2 = 1) (hpos : 0 < window_size) (hns : 0 < n_sigmas) :
    (hampel_filter vals window_size n_sigmas).length = vals.length ∧
    ∀ i, i < vals.length →
      (hampel_filter vals window_size n_sigmas).getD i 0 =
        if madOf vals window_size i ≠ 0 ∧
            n_sigmas * hampelK * madOf vals window_size i
              < |vals.getD i 0 - medOf vals window_size i| then
          medOf vals window_size i
        else vals.getD i 0 :=
  ⟨hampel_filter_length vals window_size n_sigmas,
   fun i hi => hampel_filter_getD vals window_size n_sigmas i hi⟩

/-- Closed witness for C3 at `vals = [5, 999, 5]`, `window_size = 11`,
`n_sigmas = 5`. -/
theorem hampel_filter_pointwise_witness :
    ((11:ℕ) % 2 = 1 ∧ 0 < (11:ℕ) ∧ (0:ℚ) < 5) ∧
    (hampel_filter [(5:ℚ), 999, 5] 11 5).length = ([(5:ℚ), 999, 5] : List ℚ).length ∧
    (hampel_filter [(5:ℚ), 999, 5] 11 5).getD 1 0 =
      if madOf [(5:ℚ), 999, 5] 11 1 ≠ 0 ∧
          5 * hampelK * madOf [(5:ℚ), 999, 5] 11 1
            < |([(5:ℚ), 999, 5] : List ℚ).getD 1 0 - medOf [(5:ℚ), 999, 5] 11 1| then
        medOf [(5:ℚ), 999, 5] 11 1
      else ([(5:ℚ), 999, 5] : List ℚ).getD 1 0 :=
  ⟨⟨by decide, by decide, by norm_num⟩,
   (hampel_filter_pointwise [(5:ℚ), 999, 5] 11 5 (by decide) (by decide) (by norm_num)).1,
   (hampel_filter_pointwise [(5:ℚ), 999, 5] 11 5 (by decide) (by decide) (by norm_num)).2
     1 (by decide)⟩

/-- C9: on a constant sequence the Hampel filter is the identity (every
window's MAD is `0`, so every index is left untouched), and hence the filter
is idempotent on constant sequences. -/
theorem hampel_filter_constant_identity (n : ℕ) (c : ℚ) (window_size : ℕ) (n_sigmas : ℚ) :
    hampel_filter (List.replicate n c) window_size n_sigmas = List.replicate n c ∧
    hampel_filter (hampel_filter (List.replicate n c) window_size n_sigmas)
        window_size n_sigmas
      = hampel_filter (List.replicate n c) window_size n_sigmas := by
  have hid : hampel_filter (List.replicate n c) window_size n_sigmas = List.replicate n c := by
    unfold hampel_filter
    rw [List.length_replicate]
    refine foldl_fixed _ _ _ (fun x i hi => ?_)
    have hin : i < n := List.mem_range.mp hi
    unfold hampelBody
    rw [madOf_replicate n c window_size i hin, if_pos rfl]
  exact ⟨hid, by rw [hid, hid]⟩

/-! ### Lemmas about persistence -/

lemma rawFloats_length (l : List (ℚ × Line)) (raw : List ℚ) (h : rawFloats l = some raw) :
    raw.length = l.length := by
  induction l generalizing raw with
  | nil =>
    rw [rawFloats] at h
    cases h
    rfl
  | cons p l ih =>
    rw [rawFloats] at h
    cases hp : p.2.asFloat with
    | none => rw [hp] at h; cases h
    | some q =>
      rw [hp] at h
      cases hl : rawFloats l with
      | none => rw [hl] at h; cases h
      | some qs =>
        rw [hl] at h
        cases h
        simp [ih qs hl]

lemma retained_nil_of_log_nil (start : ℚ) : retainedAfterStart [] start = [] := rfl

/-- On the success path, `_save_data` creates the directory and writes exactly
one file, with the filename pattern and the header-plus-rows content. -/
lemma save_data_success (log : List (ℚ × Line)) (start d s : ℚ) (ts : ℕ) (raw : List ℚ)
    (hne : (retainedAfterStart log start).isEmpty = false)
    (hraw : rawFloats (retainedAfterStart log start) = some raw) :
    save_data log start d s ts =
      ⟨[FsEffect.mkdirReadings,
        FsEffect.writeFile (fileNameFor ts d s)
          (headerRow ::
            ((retainedAfterStart log start).zip (hampel_filter raw 11 5)).map renderRow)],
       none⟩ := by
  have hlog : log.isEmpty = false := by
    cases log with
    | nil => rw [retained_nil_of_log_nil] at hne; simp at hne
    | cons p l => rfl
  unfold save_data
  rw [hlog, hne, hraw]
  rfl

lemma map_getD1_zip_renderRow (pairs : List (ℚ × Line)) (fs : List ℚ)
    (h : pairs.length ≤ fs.length) :
    ((pairs.zip fs).map renderRow).map (fun r => r.getD 1 "") =
      pairs.map (fun p => p.2.text) := by
  induction pairs generalizing fs with
  | nil => simp
  | cons p ps ih =>
    cases fs with
    | nil => simp at h
    | cons f fs =>
      simp only [List.zip_cons_cons, List.map_cons, List.cons.injEq]
      exact ⟨rfl, ih fs (by simpa using h)⟩

lemma map_getD0_zip_renderRow (pairs : List (ℚ × Line)) (fs : List ℚ)
    (h : pairs.length ≤ fs.length) :
    ((pairs.zip fs).map renderRow).map (fun r => r.getD 0 "") =
      pairs.map (fun p => fmtFixed 6 p.1) := by
  induction pairs generalizing fs with
  | nil => simp
  | cons p ps ih =>
    cases fs with
    | nil => simp at h
    | cons f fs =>
      simp only [List.zip_cons_cons, List.map_cons, List.cons.injEq]
      exact ⟨rfl, ih fs (by simpa using h)⟩

lemma zip_hampel_length (pairs : List (ℚ × Line)) (raw : List ℚ)
    (hraw : rawFloats pairs = some raw) :
    (pairs.zip (hampel_filter raw 11 5)).length = pairs.length := by
  have h1 : (hampel_filter raw 11 5).length = raw.length := hampel_filter_length raw 11 5
  have h2 : raw.length = pairs.length := rawFloats_length pairs raw hraw
  simp [List.length_zip, h1, h2]

/-! ## C10: `start_reading` on a missing or unconnected client -/

/-- C10: when the BLE client is absent or not connected, `start_reading`
returns `False` and leaves the reader state entirely unchanged — no buffer
clear, no start-time capture, no arming; those happen exactly when a
connected client exists. -/
theorem start_reading_spec (st : ReaderState) (now : ℚ) :
    ((st.client = none ∨ ∃ c, st.client = some c ∧ c.is_connected = false) →
      start_reading st now = (false, st)) ∧
    ((∃ c, st.client = some c ∧ c.is_connected = true) →
      start_reading st now =
        (true, { st with collected_data := [], start_time_host_s := now,
                         is_reading := true })) := by
  constructor
  · rintro (hnone | ⟨c, hc, hconn⟩)
    · simp [start_reading, hnone]
    · simp [start_reading, hc, hconn]
  · rintro ⟨c, hc, hconn⟩
    simp [start_reading, hc, hconn]

/-- Closed witness for C10: a reader with no client is refused unchanged, and
a reader with a connected client is armed. -/
theorem start_reading_spec_witness :
    start_reading ⟨none, false, false, [(1, ⟨"5", some 5⟩)], 3⟩ 7 =
      (false, ⟨none, false, false, [(1, ⟨"5", some 5⟩)], 3⟩) ∧
    start_reading ⟨some ⟨true⟩, true, false, [(1, ⟨"5", some 5⟩)], 3⟩ 7 =
      (true, ⟨some ⟨true⟩, true, true, [], 7⟩) :=
  ⟨(start_reading_spec ⟨none, false, false, [(1, ⟨"5", some 5⟩)], 3⟩ 7).1 (Or.inl rfl),
   (start_reading_spec ⟨some ⟨true⟩, true, false, [(1, ⟨"5", some 5⟩)], 3⟩ 7).2
     ⟨⟨true⟩, rfl, rfl⟩⟩

/-! ## C2: the persisted output is exactly the post-start samples, in order -/

/-- C2: whenever `_save_data` writes a file, its content is the header row
followed by exactly one row per collected sample with
`host_time >= start_time`, in arrival order: the raw-value column lists the
retained lines' texts verbatim, the timestamp column lists their own
(6-decimal formatted) host times, and samples with `host_time < start_time`
contribute no row. -/
theorem save_data_retains_exactly (log : List (ℚ × Line)) (start d s : ℚ) (ts : ℕ)
    (raw : List ℚ) (name : String) (content : List (List String))
    (hraw : rawFloats (retainedAfterStart log start) = some raw)
    (hmem : FsEffect.writeFile name content ∈ (save_data log start d s ts).effects) :
    content = headerRow ::
        ((retainedAfterStart log start).zip (hampel_filter raw 11 5)).map renderRow ∧
    (content.drop 1).map (fun r => r.getD 1 "") =
      (retainedAfterStart log start).map (fun p => p.2.text) ∧
    (content.drop 1).map (fun r => r.getD 0 "") =
      (retainedAfterStart log start).map (fun p => fmtFixed 6 p.1) ∧
    (content.drop 1).length = (retainedAfterStart log start).length := by
  have hlen : (retainedAfterStart log start).length ≤ (hampel_filter raw 11 5).length := by
    rw [hampel_filter_length, rawFloats_length _ raw hraw]
  cases hlog : log.isEmpty with
  | true =>
    rw [show save_data log start d s ts = ⟨[], none⟩ by unfold save_data; rw [hlog]; rfl] at hmem
    simp at hmem
  | false =>
    cases hne : (retainedAfterStart log start).isEmpty with
    | true =>
      rw [show save_data log start d s ts = ⟨[FsEffect.mkdirReadings], none⟩ by
        unfold save_data; rw [hlog, hne]; rfl] at hmem
      simp at hmem
    | false =>
      rw [save_data_success log start d s ts raw hne hraw] at hmem
      simp only [List.mem_cons, List.not_mem_nil, or_false] at hmem
      rcases hmem with hmem | hmem
      · exact absurd hmem (by simp)
      · obtain ⟨-, hcontent⟩ := FsEffect.writeFile.inj hmem
        refine ⟨hcontent, ?_, ?_, ?_⟩
        · rw [hcontent]
          simpa using map_getD1_zip_renderRow _ _ hlen
        · rw [hcontent]
          simpa using map_getD0_zip_renderRow _ _ hlen
        · rw [hcontent]
          simpa using zip_hampel_length _ raw hraw

/-- Closed witness for C2: three samples at host times `101, 99, 102`
(start time `100`) with values `5, 999, 5`; the write retains exactly the
two post-start samples, texts `["5", "5"]`, in arrival order. -/
theorem save_data_retains_exactly_witness :
    rawFloats (retainedAfterStart
        [(101, ⟨"5", some 5⟩), (99, ⟨"999", some 999⟩), (102, ⟨"5", some 5⟩)] 100)
      = some [5, 5] ∧
    ((headerRow ::
        ((retainedAfterStart
            [(101, ⟨"5", some 5⟩), (99, ⟨"999", some 999⟩), (102, ⟨"5", some 5⟩)] 100).zip
          (hampel_filter [5, 5] 11 5)).map renderRow).drop 1).map (fun r => r.getD 1 "")
      = ["5", "5"] := by
  have hret : retainedAfterStart
      [((101:ℚ), ⟨"5", some 5⟩), (99, ⟨"999", some 999⟩), (102, ⟨"5", some 5⟩)] 100
      = [(101, ⟨"5", some 5⟩), (102, ⟨"5", some 5⟩)] := by
    norm_num [retainedAfterStart, List.filter]
  have hraw : rawFloats (retainedAfterStart
      [((101:ℚ), ⟨"5", some 5⟩), (99, ⟨"999", some 999⟩), (102, ⟨"5", some 5⟩)] 100)
      = some [5, 5] := by
    rw [hret]
    norm_num [rawFloats]
  have h := save_data_retains_exactly
    [((101:ℚ), ⟨"5", some 5⟩), (99, ⟨"999", some 999⟩), (102, ⟨"5", some 5⟩)]
    100 100 1 1700000000 [5, 5] (fileNameFor 1700000000 100 1)
    (headerRow ::
      ((retainedAfterStart
          [(101, ⟨"5", some 5⟩), (99, ⟨"999", some 999⟩), (102, ⟨"5", some 5⟩)] 100).zip
        (hampel_filter [5, 5] 11 5)).map renderRow)
    hraw
    (by rw [save_data_success _ _ _ _ _ [5, 5] (by rw [hret]; rfl) hraw]; simp)
  refine ⟨hraw, ?_⟩
  rw [h.2.1, hret]
  rfl

/-! ## C4: a malformed retained line makes stop-and-persist raise -/

/-- C4 counterexample: a run whose collected data holds one retained line
whose text does not parse as a float makes `stop_reading` raise
`ValueError` (from the bulk `np.array(..., dtype=float)` conversion) instead
of returning an explicit outcome — refuting the claim that the
stop-and-persist operation never raises on malformed telemetry. -/
theorem stop_reading_raises_on_malformed :
    (stop_reading ⟨some ⟨true⟩, true, true, [(10, ⟨"bytearray(b)", none⟩)], 5⟩
        100 1 1700000000).retval
      = Except.error PyErr.valueError := by
  have hsave : save_data [((10:ℚ), ⟨"bytearray(b)", none⟩)] 5 100 1 1700000000
      = ⟨[FsEffect.mkdirReadings], some PyErr.valueError⟩ := by
    have hret : retainedAfterStart [((10:ℚ), ⟨"bytearray(b)", none⟩)] 5
        = [(10, ⟨"bytearray(b)", none⟩)] := by
      norm_num [retainedAfterStart, List.filter]
    unfold save_data
    rw [hret]
    rfl
  unfold stop_reading
  rw [hsave]

/-- C4 amended: when every retained line parses as a float, `stop_reading`
completes without raising, returns `True`, and has cleared the reading flag;
a retained line that does not parse instead raises `ValueError` to the
caller (see the counterexample). -/
theorem stop_reading_ok_on_numeric (st : ReaderState) (d s : ℚ) (ts : ℕ) (raw : List ℚ)
    (hraw : rawFloats (retainedAfterStart st.collected_data st.start_time_host_s)
      = some raw) :
    (stop_reading st d s ts).retval = Except.ok true ∧
    (stop_reading st d s ts).state.is_reading = false := by
  refine ⟨?_, rfl⟩
  unfold stop_reading
  cases hlog : st.collected_data.isEmpty with
  | true =>
    rw [show save_data st.collected_data st.start_time_host_s d s ts = ⟨[], none⟩ by
      unfold save_data; rw [hlog]; rfl]
  | false =>
    cases hne : (retainedAfterStart st.collected_data st.start_time_host_s).isEmpty with
    | true =>
      rw [show save_data st.collected_data st.start_time_host_s d s ts
          = ⟨[FsEffect.mkdirReadings], none⟩ by unfold save_data; rw [hlog, hne]; rfl]
    | false =>
      rw [save_data_success _ _ d s ts raw hne hraw]

/-- Closed witness for the amended C4: a garbled line arriving before the
start time is discarded, the one retained line parses, and the stop
operation returns `True`. -/
theorem stop_reading_ok_on_numeric_witness :
    rawFloats (retainedAfterStart [(1, ⟨"x7", none⟩), (6, ⟨"7", some 7⟩)] 5) = some [7] ∧
    (stop_reading ⟨some ⟨true⟩, true, true, [(1, ⟨"x7", none⟩), (6, ⟨"7", some 7⟩)], 5⟩
        100 1 1700000000).retval = Except.ok true := by
  have hret : retainedAfterStart [((1:ℚ), ⟨"x7", none⟩), (6, ⟨"7", some 7⟩)] 5
      = [(6, ⟨"7", some 7⟩)] := by
    norm_num [retainedAfterStart, List.filter]
  have hraw : rawFloats (retainedAfterStart [((1:ℚ), ⟨"x7", none⟩), (6, ⟨"7", some 7⟩)] 5)
      = some [7] := by
    rw [hret]
    norm_num [rawFloats]
  exact ⟨hraw,
    (stop_reading_ok_on_numeric
      ⟨some ⟨true⟩, true, true, [(1, ⟨"x7", none⟩), (6, ⟨"7", some 7⟩)], 5⟩
      100 1 1700000000 [7] hraw).1⟩

/-! ## C6: the empty case writes nothing but is not a distinct outcome -/

/-- C6 counterexample: a run whose only sample predates the start time and a
run with one retained sample produce the *same* value at the caller
(`stop_reading` returns `True`, `_save_data` returns `None` in both cases),
even though the first writes no artifact file and the second writes one — so
the "nothing to persist" case is not an outcome the caller can distinguish
from a successful write, refuting that part of the claim. -/
theorem stop_reading_nothing_to_persist_indistinct :
    (stop_reading ⟨some ⟨true⟩, true, true, [(1, ⟨"7", some 7⟩)], 5⟩ 100 1 1700000000).retval
      = (stop_reading ⟨some ⟨true⟩, true, true, [(6, ⟨"7", some 7⟩)], 5⟩
          100 1 1700000000).retval ∧
    hasFileWrite (stop_reading ⟨some ⟨true⟩, true, true, [(1, ⟨"7", some 7⟩)], 5⟩
        100 1 1700000000).save.effects = false ∧
    hasFileWrite (stop_reading ⟨some ⟨true⟩, true, true, [(6, ⟨"7", some 7⟩)], 5⟩
        100 1 1700000000).save.effects = true := by
  have hsave1 : save_data [((1:ℚ), ⟨"7", some 7⟩)] 5 100 1 1700000000
      = ⟨[FsEffect.mkdirReadings], none⟩ := by
    have hret : retainedAfterStart [((1:ℚ), ⟨"7", some 7⟩)] 5 = [] := by
      norm_num [retainedAfterStart, List.filter]
    unfold save_data
    rw [hret]
    rfl
  have hret2 : retainedAfterStart [((6:ℚ), ⟨"7", some 7⟩)] 5 = [(6, ⟨"7", some 7⟩)] := by
    norm_num [retainedAfterStart, List.filter]
  have hsave2 : save_data [((6:ℚ), ⟨"7", some 7⟩)] 5 100 1 1700000000
      = ⟨[FsEffect.mkdirReadings,
          FsEffect.writeFile (fileNameFor 1700000000 100 1)
            (headerRow ::
              (((retainedAfterStart [((6:ℚ), ⟨"7", some 7⟩)] 5)).zip
                (hampel_filter [7] 11 5)).map renderRow)], none⟩ :=
    save_data_success [((6:ℚ), ⟨"7", some 7⟩)] 5 100 1 1700000000 [7]
      (by rw [hret2]; rfl) (by rw [hret2]; norm_num [rawFloats])
  refine ⟨?_, ?_, ?_⟩
  · unfold stop_reading
    rw [hsave1, hsave2]
  · unfold stop_reading
    rw [hsave1]
    rfl
  · unfold stop_reading
    rw [hsave2]
    rfl

/-- C6 amended: whenever nothing is retained (no samples, or none at or after
the start time), the stop-and-persist operation writes no artifact file (it
may still create the `readings` directory) and returns normally — but the
value returned to the caller is the same `True`/`None` as after a successful
write; only the log output distinguishes the "nothing to persist" case. -/
theorem stop_reading_empty_no_artifact (st : ReaderState) (d s : ℚ) (ts : ℕ)
    (h : retainedAfterStart st.collected_data st.start_time_host_s = []) :
    hasFileWrite (stop_reading st d s ts).save.effects = false ∧
    (stop_reading st d s ts).retval = Except.ok true := by
  have hsave : save_data st.collected_data st.start_time_host_s d s ts
      = ⟨[], none⟩ ∨
      save_data st.collected_data st.start_time_host_s d s ts
      = ⟨[FsEffect.mkdirReadings], none⟩ := by
    cases hlog : st.collected_data.isEmpty with
    | true =>
      left
      unfold save_data
      rw [hlog]
      rfl
    | false =>
      right
      unfold save_data
      rw [hlog, h]
      rfl
  unfold stop_reading
  rcases hsave with hsave | hsave
  · rw [hsave]
    exact ⟨rfl, rfl⟩
  · rw [hsave]
    exact ⟨rfl, rfl⟩

/-- Closed witness for the amended C6: one sample at host time `1` against
start time `5` — nothing is retained, no file is written, and the returned
outcome is `True`. -/
theorem stop_reading_empty_no_artifact_witness :
    retainedAfterStart [((1:ℚ), ⟨"7", some 7⟩)] 5 = [] ∧
    hasFileWrite (stop_reading ⟨some ⟨true⟩, true, true, [(1, ⟨"7", some 7⟩)], 5⟩
        200 1 1700000001).save.effects = false ∧
    (stop_reading ⟨some ⟨true⟩, true, true, [(1, ⟨"7", some 7⟩)], 5⟩
        200 1 1700000001).retval = Except.ok true := by
  have hret : retainedAfterStart [((1:ℚ), ⟨"7", some 7⟩)] 5 = [] := by
    norm_num [retainedAfterStart, List.filter]
  have h := stop_reading_empty_no_artifact
    ⟨some ⟨true⟩, true, true, [(1, ⟨"7", some 7⟩)], 5⟩ 200 1 1700000001 hret
  exact ⟨hret, h.1, h.2⟩

/-! ## C8: artifact naming and format -/

/-- C8: for every non-empty, fully parseable retained sequence, `_save_data`
creates the `readings` directory on demand and writes exactly one CSV file
named `<unix_timestamp>_<int(distance_cm)>cm_<speed to 2 decimals with "."
replaced by "p">mps_grip_data.csv` inside it; the content begins with the
header row and has exactly one row per retained sample, each row being the
host time formatted to 6 decimal places, the raw line text verbatim, and the
integer-truncated filtered value. -/
theorem save_data_artifact_format (log : List (ℚ × Line)) (start d s : ℚ) (ts : ℕ)
    (raw : List ℚ)
    (hne : (retainedAfterStart log start).isEmpty = false)
    (hraw : rawFloats (retainedAfterStart log start) = some raw) :
    (save_data log start d s ts).effects =
      [FsEffect.mkdirReadings,
       FsEffect.writeFile
         ("readings/" ++ toString ts ++ "_" ++ toString (pyIntTrunc d) ++ "cm_" ++
           replaceDotWithP (fmtFixed 2 s) ++ "mps_grip_data.csv")
         (headerRow ::
           ((retainedAfterStart log start).zip (hampel_filter raw 11 5)).map renderRow)] ∧
    (save_data log start d s ts).error = none ∧
    (((retainedAfterStart log start).zip (hampel_filter raw 11 5)).map renderRow).length
      = (retainedAfterStart log start).length := by
  rw [save_data_success log start d s ts raw hne hraw]
  refine ⟨rfl, rfl, ?_⟩
  rw [List.length_map]
  exact zip_hampel_length _ raw hraw

/-- Closed witness for C8: two retained samples `(6, "5")` and `(7, "7")`,
`distance_cm = 100`, `speed_mps = 1/2`, timestamp `1700000000`: the file is
`readings/1700000000_100cm_0p50mps_grip_data.csv` with a header and two
rows. -/
theorem save_data_artifact_format_witness :
    (save_data [(6, ⟨"5", some 5⟩), (7, ⟨"7", some 7⟩)] 5 100 (1/2) 1700000000).effects =
      [FsEffect.mkdirReadings,
       FsEffect.writeFile "readings/1700000000_100cm_0p50mps_grip_data.csv"
         [["Host_Time_s", "Raw_Data_Line", "Filtered_Line"],
          ["6.000000", "5", "5"], ["7.000000", "7", "7"]]] ∧
    (save_data [(6, ⟨"5", some 5⟩), (7, ⟨"7", some 7⟩)] 5 100 (1/2) 1700000000).error
      = none := by
  have hret : retainedAfterStart [((6:ℚ), ⟨"5", some 5⟩), (7, ⟨"7", some 7⟩)] 5
      = [(6, ⟨"5", some 5⟩), (7, ⟨"7", some 7⟩)] := by
    norm_num [retainedAfterStart, List.filter]
  have hraw : rawFloats (retainedAfterStart
      [((6:ℚ), ⟨"5", some 5⟩), (7, ⟨"7", some 7⟩)] 5) = some [5, 7] := by
    rw [hret]
    norm_num [rawFloats]
  have h := save_data_artifact_format [((6:ℚ), ⟨"5", some 5⟩), (7, ⟨"7", some 7⟩)]
    5 100 (1/2) 1700000000 [5, 7] (by rw [hret]; rfl) hraw
  have hname : "readings/" ++ toString (1700000000:ℕ) ++ "_" ++
      toString (pyIntTrunc 100) ++ "cm_" ++ replaceDotWithP (fmtFixed 2 (1/2)) ++
      "mps_grip_data.csv" = "readings/1700000000_100cm_0p50mps_grip_data.csv" := by
    have h2 : round ((1:ℚ)/2 * 10 ^ 2) = 50 := by rw [round_eq]; norm_num
    have hd : pyIntTrunc (100:ℚ) = 100 := by norm_num [pyIntTrunc]
    rw [fmtFixed, h2, hd]
    rfl
  have hfilt : hampel_filter [(5:ℚ), 7] 11 5 = [5, 7] := by
    norm_num [hampel_filter, hampelBody, madOf, medOf, windowOf, pySlice, median, sortLe,
      insertLe, hampelK, List.range_succ]
  have hrows : (headerRow ::
      ((retainedAfterStart [((6:ℚ), ⟨"5", some 5⟩), (7, ⟨"7", some 7⟩)] 5).zip
        (hampel_filter [5, 7] 11 5)).map renderRow) =
      [["Host_Time_s", "Raw_Data_Line", "Filtered_Line"],
       ["6.000000", "5", "5"], ["7.000000", "7", "7"]] := by
    rw [hret, hfilt]
    have h6 : fmtFixed 6 (6:ℚ) = "6.000000" := by
      have : round ((6:ℚ) * 10 ^ 6) = 6000000 := by rw [round_eq]; norm_num
      rw [fmtFixed, this]
      rfl
    have h7 : fmtFixed 6 (7:ℚ) = "7.000000" := by
      have : round ((7:ℚ) * 10 ^ 6) = 7000000 := by rw [round_eq]; norm_num
      rw [fmtFixed, this]
      rfl
    have h5t : pyIntTrunc (5:ℚ) = 5 := by norm_num [pyIntTrunc]
    have h7t : pyIntTrunc (7:ℚ) = 7 := by norm_num [pyIntTrunc]
    simp only [List.zip_cons_cons, List.zip_nil_right, List.map_cons, List.map_nil,
      renderRow, headerRow, h6, h7, h5t, h7t]
    rfl
  rw [hname, hrows] at h
  exact ⟨h.1, h.2.1⟩

/-! ## C1, C5, C7: theorems about the recording task -/

/-- C1 (refuted by the code): in a run whose motor transport is not
connected, `sendCommand` returns the sentinel `"ERROR: DISCONNECTED"`
(it does not raise, and the response is never parsed), the run proceeds, and
at the stop step the zero-argument `stop_reading()` call raises `TypeError`
— in the main path and again in the `except` handler.  Consequently the
telemetry reader is never disarmed (`is_reading` stays `true`), no disarm
completes (no `stopDone` event), and neither failure nor success is ever
reported to the caller; the `TypeError` escapes the task. -/
theorem recording_task_motor_disconnected_never_disarms :
    Ev.stopDone ∉ (recording_task 100 (1/10)
        ⟨false, "OK", ⟨some ⟨true⟩, true, false, [], 0⟩, 100, 1700000000⟩).1 ∧
    Ev.reportFinished false ∉ (recording_task 100 (1/10)
        ⟨false, "OK", ⟨some ⟨true⟩, true, false, [], 0⟩, 100, 1700000000⟩).1 ∧
    Ev.reportFinished true ∉ (recording_task 100 (1/10)
        ⟨false, "OK", ⟨some ⟨true⟩, true, false, [], 0⟩, 100, 1700000000⟩).1 ∧
    (recording_task 100 (1/10)
        ⟨false, "OK", ⟨some ⟨true⟩, true, false, [], 0⟩, 100, 1700000000⟩).2.2
      = Except.error PyErr.typeError ∧
    (recording_task 100 (1/10)
        ⟨false, "OK", ⟨some ⟨true⟩, true, false, [], 0⟩, 100, 1700000000⟩).2.1.is_reading
      = true ∧
    (recording_task 100 (1/10)
        ⟨false, "OK", ⟨some ⟨true⟩, true, false, [], 0⟩, 100, 1700000000⟩).1.get? 1
      = some (Ev.sendCommand "ERROR: DISCONNECTED") := by
  have hne : ¬((1:ℚ)/10 * 100 = 0) := by norm_num
  have hrt : recording_task 100 (1/10)
      ⟨false, "OK", ⟨some ⟨true⟩, true, false, [], 0⟩, 100, 1700000000⟩ =
      ([Ev.startReading true, Ev.sendCommand "ERROR: DISCONNECTED",
        Ev.wait (max 10 (100 / ((1:ℚ)/10 * 100)) + 1), Ev.stopAttempt 0, Ev.stopAttempt 0],
       ⟨some ⟨true⟩, true, true, [], 100⟩, Except.error PyErr.typeError) := by
    unfold recording_task
    rw [if_neg hne]
    rfl
  rw [hrt]
  refine ⟨by simp, by simp, by simp, rfl, rfl, rfl⟩

/-- C7 (refuted by the code): telemetry capture is indeed armed strictly
before the motor command is dispatched (trace positions 0 and 1), and the
`stop_reading()` call is issued strictly after the open-loop wait (positions
2 and 3) — but that call raises `TypeError` (missing `distance_cm` and
`speed_mps`), so the disarm never completes: `is_reading` remains `true`, no
`stopDone` event exists, and no retained-sample window is ever closed or
persisted, refuting the claimed superset guarantee. -/
theorem recording_task_arm_before_send_but_never_disarmed :
    (recording_task 100 (1/10)
        ⟨true, "OK", ⟨some ⟨true⟩, true, false, [], 0⟩, 100, 1700000001⟩).1.get? 0
      = some (Ev.startReading true) ∧
    (recording_task 100 (1/10)
        ⟨true, "OK", ⟨some ⟨true⟩, true, false, [], 0⟩, 100, 1700000001⟩).1.get? 1
      = some (Ev.sendCommand "OK") ∧
    (recording_task 100 (1/10)
        ⟨true, "OK", ⟨some ⟨true⟩, true, false, [], 0⟩, 100, 1700000001⟩).1.get? 2
      = some (Ev.wait 11) ∧
    (recording_task 100 (1/10)
        ⟨true, "OK", ⟨some ⟨true⟩, true, false, [], 0⟩, 100, 1700000001⟩).1.get? 3
      = some (Ev.stopAttempt 0) ∧
    Ev.stopDone ∉ (recording_task 100 (1/10)
        ⟨true, "OK", ⟨some ⟨true⟩, true, false, [], 0⟩, 100, 1700000001⟩).1 ∧
    (recording_task 100 (1/10)
        ⟨true, "OK", ⟨some ⟨true⟩, true, false, [], 0⟩, 100, 1700000001⟩).2.1.is_reading
      = true := by
  have hne : ¬((1:ℚ)/10 * 100 = 0) := by norm_num
  have hwait : max (10:ℚ) (100 / ((1:ℚ)/10 * 100)) + 1 = 11 := by norm_num
  have hrt : recording_task 100 (1/10)
      ⟨true, "OK", ⟨some ⟨true⟩, true, false, [], 0⟩, 100, 1700000001⟩ =
      ([Ev.startReading true, Ev.sendCommand "OK",
        Ev.wait (max 10 (100 / ((1:ℚ)/10 * 100)) + 1), Ev.stopAttempt 0, Ev.stopAttempt 0],
       ⟨some ⟨true⟩, true, true, [], 100⟩, Except.error PyErr.typeError) := by
    unfold recording_task
    rw [if_neg hne]
    rfl
  rw [hrt, hwait]
  refine ⟨rfl, rfl, rfl, rfl, by simp, rfl⟩

/-- C5: for every run with positive speed, the open-loop wait between the
motor command and the stop attempt (third trace event) equals
`max(10, distance_cm / (speed_mps * 100)) + 1` seconds — the fixed floor is
`10` and the margin is `1` (recordingwindow.py line 280). -/
theorem recording_task_wait_formula (distance_cm speed_mps : ℚ) (env : Env)
    (hs : 0 < speed_mps) :
    (recording_task distance_cm speed_mps env).1.get? 2
      = some (Ev.wait (max 10 (distance_cm / (speed_mps * 100)) + 1)) := by
  have hne : ¬(speed_mps * 100 = 0) :=
    ne_of_gt (mul_pos hs (by norm_num))
  unfold recording_task
  rw [if_neg hne]
  rcases hsr : start_reading env.reader env.now with ⟨ok, st1⟩
  rfl

/-- Closed witness for C5: at `distance_cm = 100`, `speed_mps = 1/10` the
wait is `max(10, 100 / 10) + 1 = 11` seconds. -/
theorem recording_task_wait_formula_witness :
    (0:ℚ) < 1/10 ∧
    (recording_task 100 (1/10)
        ⟨true, "OK", ⟨some ⟨true⟩, true, false, [], 0⟩, 100, 1700000002⟩).1.get? 2
      = some (Ev.wait 11) := by
  have h := recording_task_wait_formula 100 (1/10)
    ⟨true, "OK", ⟨some ⟨true⟩, true, false, [], 0⟩, 100, 1700000002⟩ (by norm_num)
  rw [show max (10:ℚ) (100 / ((1:ℚ)/10 * 100)) + 1 = 11 by norm_num] at h
  exact ⟨by norm_num, h⟩

end StepperFriction
